import Mathlib

/-!
Shallow embedding of the thermocouple-logger acquisition core
(HH-4208SD frame parser, serial-buffer framer, channel-state store,
serial-port driver retry/backoff and write buffering, port discovery).

Strings of the source are modelled as `List Char`; JavaScript numbers that
hold temperatures are modelled as `Rat` (all arithmetic involved is exact
decimal with one fractional digit); timestamps are epoch milliseconds as
`Nat`.
-/

/-- Terminator byte that delimits frames on the serial stream. -/
def TERMINATOR : Char := '\r'

/-- Start-of-text marker that opens every frame body (0x02). -/
def STX : Char := Char.ofNat 2

/-- Channel mapping from hex identifiers to decimal channel numbers
(`CHANNEL_MAP` in parser.ts); `none` models absence of the key. -/
def CHANNEL_MAP : List Char → Option Nat
  | ['4', '1'] => some 1
  | ['4', '2'] => some 2
  | ['4', '3'] => some 3
  | ['4', '4'] => some 4
  | ['4', '5'] => some 5
  | ['4', '6'] => some 6
  | ['4', '7'] => some 7
  | ['4', '8'] => some 8
  | ['4', '9'] => some 9
  | ['4', 'A'] => some 10
  | ['4', 'B'] => some 11
  | ['4', 'C'] => some 12
  | _ => none

/-- Parsed thermocouple data message (`ParsedMessage` in parser.ts).
Optional fields model the TypeScript interface's optional properties:
`none` is an absent property. `decimalPoint` stores `parseInt` of a single
character, whose inner `none` models `NaN`. -/
structure ParsedMessage where
  valid : Bool
  channelHex : Option (List Char) := none
  channelNumber : Option Nat := none
  temperature : Option Rat := none
  temperatureUnit : Option (List Char) := none
  polarity : Option Char := none
  decimalPoint : Option (Option Nat) := none
  sensorData : Option (List Char) := none
  error : Option (List Char) := none
deriving Repr, DecidableEq

/-- `isValidHH4208SDFormat` from parser.ts: length ≥ 3, STX header,
and a recognized 2-character channel identifier. -/
def isValidHH4208SDFormat (message : List Char) : Bool :=
  match message with
  | [] => false
  | c0 :: _ =>
    if message.length < 3 || c0.toNat != 2 then false
    else (CHANNEL_MAP (((message.drop 1).take 2).map Char.toUpper)).isSome

/-- Digit-string to number, the behavior of `parseInt(s, 10)` on an
all-digit string (accumulator form). -/
def digitsToNatAux (acc : Nat) : List Char → Nat
  | [] => acc
  | c :: rest => digitsToNatAux (acc * 10 + (c.toNat - 48)) rest

/-- `parseInt(s, 10)` on an all-digit string. -/
def digitsToNat (l : List Char) : Nat := digitsToNatAux 0 l

/-- `parseInt(c, 10)` on a single character: a digit parses to its value,
anything else is `NaN` (modelled as `none`). -/
def charDigit? (c : Char) : Option Nat :=
  if c.isDigit then some (c.toNat - 48) else none

/-- Decimal rendering of a number, for interpolated error messages. -/
def strNat (n : Nat) : List Char := (toString n).toList

/-- `parseHH4208SDMessage` from parser.ts. Byte layout after the STX:
prefix, channel digit, two unit-code bytes, polarity byte, decimal-point
byte, then the sensor payload. The payload is scrubbed of non-digit
characters and the temperature is the last 3 digits divided by 10,
negated when the polarity byte is '1'. -/
def parseHH4208SDMessage (message : List Char) : ParsedMessage :=
  if isValidHH4208SDFormat message = false then
    { valid := false
      error := some (if message.length < 3 then "Message too short".toList
        else if (message.headD STX).toNat != 2 then "Missing STX header".toList
        else "Invalid channel identifier".toList) }
  else
    match message with
    | [] => { valid := false, error := some "Message too short".toList }
    | _stx :: data =>
      match data with
      | p :: c :: u1 :: u2 :: pol :: dec :: remaining =>
        let channelHex := [p.toUpper, c.toUpper]
        match CHANNEL_MAP channelHex with
        | none =>
          { valid := false
            error := some ("Invalid channel: ".toList ++ channelHex) }
        | some channelNumber =>
          let cleanRemaining := remaining.filter Char.isDigit
          if cleanRemaining.length < 3 then
            { valid := false
              channelHex := some channelHex
              channelNumber := some channelNumber
              sensorData := some remaining
              error := some ("No temperature digits found in: \"".toList ++ remaining
                ++ "\" (cleaned: \"".toList ++ cleanRemaining ++ "\")".toList) }
          else
            let tempRaw := cleanRemaining.drop (cleanRemaining.length - 3)
            let magnitude : Rat := (digitsToNat tempRaw : Rat) / 10
            let temperature : Rat := if pol = '1' then -magnitude else magnitude
            let unit : List Char :=
              if [u1, u2] = ['0', '1'] then "C".toList
              else if [u1, u2] = ['0', '2'] then "F".toList
              else "Unknown".toList
            let sign : Char := if pol = '0' then '+' else '-'
            if temperature < -200 ∨ temperature > 2000 then
              { valid := false
                channelHex := some channelHex
                channelNumber := some channelNumber
                sensorData := some remaining
                error := some ("Invalid temperature value: ".toList ++ tempRaw
                  ++ " from \"".toList ++ cleanRemaining ++ "\"".toList) }
            else
              { valid := true
                channelHex := some channelHex
                channelNumber := some channelNumber
                temperature := some temperature
                temperatureUnit := some unit
                polarity := some sign
                decimalPoint := some (charDigit? dec)
                sensorData := some remaining }
      | _ =>
        { valid := false
          error := some ("Message too short: ".toList ++ strNat data.length
            ++ " chars, need at least 6".toList) }

/-- JavaScript `String.prototype.split` restricted to a single-character
separator: always returns at least one (possibly empty) part. -/
def jsSplit (sep : Char) : List Char → List (List Char)
  | [] => [[]]
  | c :: rest =>
    let s := jsSplit sep rest
    if c = sep then [] :: s
    else
      match s with
      | [] => [[c]]
      | t :: ts => (c :: t) :: ts

/-- `processSerialBuffer` from parser.ts: append the new data to the
carry buffer, split on the terminator, keep the last part as the new
carry, and parse every non-empty complete segment. -/
def processSerialBuffer (buffer newData : List Char) : List ParsedMessage × List Char :=
  let buf := buffer ++ newData
  let parts := jsSplit TERMINATOR buf
  let newBuffer := parts.getLastD []
  let complete := parts.dropLast
  (((complete.filter (fun m => 0 < m.length)).map parseHH4208SDMessage), newBuffer)

/-- Feeding a list of chunks one at a time through `processSerialBuffer`,
threading the returned carry between calls and concatenating the parse
results. -/
def feedMany : List (List Char) → List Char → List ParsedMessage × List Char
  | [], buffer => ([], buffer)
  | chunk :: rest, buffer =>
    let r1 := processSerialBuffer buffer chunk
    let r2 := feedMany rest r1.2
    (r1.1 ++ r2.1, r2.2)

/-- The trailing unterminated segment of a byte sequence: everything
after the last terminator (the whole sequence when no terminator
occurs). -/
def trailingSegment (l : List Char) : List Char :=
  (l.reverse.takeWhile (fun c => !(c == TERMINATOR))).reverse

/-- Prepends a pending prefix onto the first part of a split (used to
state how `jsSplit` distributes over append). -/
def mergeHead (pre : List Char) : List (List Char) → List (List Char)
  | [] => [pre]
  | t :: ts => (pre ++ t) :: ts

/-- The temperature value `parseHH4208SDMessage` computes just before its
range check: defined (`some`) exactly when the frame passes structural
validation, carries a full 6-byte header and at least 3 digits survive
scrubbing. Mirrors the source up to the range check. -/
def computedTemperature (message : List Char) : Option Rat :=
  if isValidHH4208SDFormat message = false then none
  else
    match message with
    | [] => none
    | _stx :: data =>
      match data with
      | p :: c :: _u1 :: _u2 :: pol :: _dec :: remaining =>
        match CHANNEL_MAP [p.toUpper, c.toUpper] with
        | none => none
        | some _ =>
          let cleanRemaining := remaining.filter Char.isDigit
          if cleanRemaining.length < 3 then none
          else
            let tempRaw := cleanRemaining.drop (cleanRemaining.length - 3)
            let magnitude : Rat := (digitsToNat tempRaw : Rat) / 10
            some (if pol = '1' then -magnitude else magnitude)
      | _ => none

/-! ## Channel connectivity (server.ts) -/

/-- `isChannelConnected` from server.ts: the clock reading `now` and the
channel's `lastUpdate` are epoch milliseconds; the time difference is
taken in (exact) seconds and compared strictly against 60, and the
epoch-zero sentinel (`lastUpdate = 0`, meaning "never updated") is never
connected. -/
def isChannelConnected (now lastUpdate : Nat) : Bool :=
  decide (((now : Rat) - (lastUpdate : Rat)) / 1000 < 60) && decide (0 < lastUpdate)

/-! ## Channel state store (multi-datalogger variant) -/

/-- Configured thermocouple channel (`ThermocoupleConfig` in config.ts). -/
structure ThermocoupleConfig where
  name : List Char
  type : List Char
  channel : Nat
deriving Repr, DecidableEq

/-- Datalogger configuration (`DataloggerConfig` in config.ts); the
serial-port sub-object is irrelevant to the store and kept as the device
path only. -/
structure DataloggerConfig where
  id : List Char
  name : List Char
  serialPath : List Char
  thermocouples : List ThermocoupleConfig
  autoDetected : Bool
deriving Repr, DecidableEq

/-- Global settings of `AppConfig` (config.ts); absent properties are
`none`. -/
structure GlobalSettings where
  connectionTimeout : Option Nat
  defaultThermocoupleType : Option (List Char)
deriving Repr, DecidableEq

/-- Application configuration (`AppConfig` in config.ts). -/
structure AppConfig where
  dataloggers : List DataloggerConfig
  globalSettings : Option GlobalSettings
deriving Repr, DecidableEq

/-- Entry of the `dataloggerPorts` map: the live port handle itself is
I/O and outside the embedding; the per-port carry buffer and the
datalogger configuration are kept. -/
structure DataloggerInfo where
  buffer : List Char
  config : DataloggerConfig
deriving Repr, DecidableEq

/-- Per-channel stored state (`ChannelData` in the multi-datalogger
entrypoint). Timestamps are epoch milliseconds; `lastUpdate = 0` is the
`new Date(0)` sentinel. -/
structure ChannelData where
  temperature : Rat
  lastUpdate : Nat
  config : ThermocoupleConfig
  detected : Bool
  firstSeen : Nat
  dataCount : Nat
  dataloggerID : List Char
  dataloggerName : List Char
deriving Repr, DecidableEq

/-- Mutable module state touched by `processValidMessage`: the
`channelData` record keyed by channel key, and the
`previousTemperatures` tracker. JavaScript objects are modelled as
functions to `Option`. -/
structure StoreState where
  channelData : List Char → Option ChannelData
  previousTemperatures : List Char → Option Rat

/-- `createChannelKey`: `dataloggerID:channelHex`. -/
def createChannelKey (dataloggerID channelHex : List Char) : List Char :=
  dataloggerID ++ ":".toList ++ channelHex

/-- Maximal leading digit run of a string. -/
def digitRun (l : List Char) : List Char := l.takeWhile Char.isDigit

/-- Scans the suffixes of a string left to right and returns the first
hit of a position matcher — the leftmost-match rule of
`String.prototype.match`. -/
def scanSuffixes (f : List Char → Option (List Char)) : List Char → Option (List Char)
  | [] => f []
  | c :: rest =>
    match f (c :: rest) with
    | some r => some r
    | none => scanSuffixes f (c :: rest).tail
-- note: `(c :: rest).tail = rest`; spelled this way to keep the
-- structural recursion syntactically obvious.

/-- Position matcher for the regular expression `Datalogger (\d+)`. -/
def matchDataloggerAt (l : List Char) : Option (List Char) :=
  if l.take 11 = "Datalogger ".toList ∧ digitRun (l.drop 11) ≠ [] then
    some (digitRun (l.drop 11))
  else none

/-- Position matcher for the regular expression `D(\d+)`. -/
def matchDAt (l : List Char) : Option (List Char) :=
  match l with
  | 'D' :: rest => if digitRun rest ≠ [] then some (digitRun rest) else none
  | _ => none

/-- Position matcher for the regular expression `(\d+)`. -/
def matchNumAt (l : List Char) : Option (List Char) :=
  match l with
  | c :: rest => if c.isDigit then some (c :: digitRun rest) else none
  | [] => none

/-- `extractDataloggerNumber` from parser.ts: tries `Datalogger (\d+)`,
then `D(\d+)`, then any digit run, and falls back to "1". -/
def extractDataloggerNumber (dataloggerName : List Char) : List Char :=
  match scanSuffixes matchDataloggerAt dataloggerName with
  | some m => m
  | none =>
    match scanSuffixes matchDAt dataloggerName with
    | some m => m
    | none =>
      match scanSuffixes matchNumAt dataloggerName with
      | some m => m
      | none => "1".toList

/-- `createThermocoupleDefaultName` from parser.ts: `D{n}-T{c}`. -/
def createThermocoupleDefaultName (dataloggerNum channelNum : Nat) : List Char :=
  "D".toList ++ strNat dataloggerNum ++ "-T".toList ++ strNat channelNum

/-- `config.globalSettings?.defaultThermocoupleType || "K"`; the empty
string is falsy under `||`. -/
def defaultTCType (cfg : AppConfig) : List Char :=
  match cfg.globalSettings with
  | some gs =>
    match gs.defaultThermocoupleType with
    | some t => if t = [] then "K".toList else t
    | none => "K".toList
  | none => "K".toList

/-- `processValidMessage` of the multi-datalogger entrypoint, as a state
transition on `StoreState`. `dataloggerPorts` is the registry of live
dataloggers (read-only here), `now` the epoch-millisecond clock at the
time of processing (both `new Date()` calls of the source observe the
same instant). Dashboard rendering is I/O and omitted. -/
def processValidMessage (cfg : AppConfig)
    (dataloggerPorts : List Char → Option DataloggerInfo)
    (parsed : ParsedMessage) (dataloggerID : List Char) (now : Nat)
    (s : StoreState) : StoreState :=
  match parsed.valid, parsed.channelHex, parsed.channelNumber, parsed.temperature with
  | true, some hex, some num, some temp =>
    if hex = [] ∨ num = 0 then s
    else
      let channelKey := createChannelKey dataloggerID hex
      match dataloggerPorts dataloggerID with
      | none => s
      | some dataloggerInfo =>
        let s1 : StoreState :=
          match s.channelData channelKey with
          | some _ => s
          | none =>
            let dataloggerNum :=
              digitsToNat (extractDataloggerNumber dataloggerInfo.config.name)
            let defaultConfig : ThermocoupleConfig :=
              { name := createThermocoupleDefaultName dataloggerNum num
                type := defaultTCType cfg
                channel := num }
            let finalConfig :=
              (dataloggerInfo.config.thermocouples.find?
                (fun tc => tc.channel = num)).getD defaultConfig
            { s with channelData := fun k =>
                if k = channelKey then
                  some { temperature := 0
                         lastUpdate := 0
                         config := finalConfig
                         detected := true
                         firstSeen := now
                         dataCount := 0
                         dataloggerID := dataloggerID
                         dataloggerName := dataloggerInfo.config.name }
                else s.channelData k }
        match s1.channelData channelKey with
        | none => s1
        | some entry =>
          { channelData := fun k =>
              if k = channelKey then
                some { entry with
                        temperature := temp
                        lastUpdate := now
                        dataCount := entry.dataCount + 1 }
              else s1.channelData k
            previousTemperatures := fun k =>
              if k = channelKey then some temp else s1.previousTemperatures k }
  | _, _, _, _ => s

/-- One incoming reading for the store: the parsed message, the
originating datalogger's ID, and the processing time. -/
structure ReadingEvent where
  parsed : ParsedMessage
  dataloggerID : List Char
  now : Nat

/-- Processing a sequence of readings through `processValidMessage`. -/
def processMany (cfg : AppConfig)
    (dataloggerPorts : List Char → Option DataloggerInfo) :
    List ReadingEvent → StoreState → StoreState
  | [], s => s
  | ev :: rest, s =>
    processMany cfg dataloggerPorts rest
      (processValidMessage cfg dataloggerPorts ev.parsed ev.dataloggerID ev.now s)

/-! ## Serial-port driver: reconnection backoff and write buffering -/

/-- `maxReconnectAttempts` field initializer of `SerialPort`. -/
def maxReconnectAttempts : Nat := 10

/-- `reconnectDelay` field initializer of `SerialPort` (milliseconds). -/
def reconnectDelay : Nat := 1000

/-- `maxBufferSize` field initializer of `SerialPort`. -/
def maxBufferSize : Nat := 1000

/-- `String.prototype.includes`: contiguous-substring test. -/
def listIncludes (needle : List Char) : List Char → Bool
  | [] => needle.isEmpty
  | c :: rest => needle.isPrefixOf (c :: rest) || listIncludes needle rest

/-- The error classification inside `shouldReconnect`: the disconnect,
cannot-open and device-busy message families are transient. -/
def isTransientError (message : List Char) : Bool :=
  listIncludes "cannot open".toList message
    || listIncludes "disconnected".toList message
    || listIncludes "Device or resource busy".toList message

/-- `shouldReconnect` from the driver: retry only while fewer than
`maxReconnectAttempts` reconnect attempts were made and the error is
transient. -/
def shouldReconnect (reconnectAttempts : Nat) (message : List Char) : Bool :=
  decide (reconnectAttempts < maxReconnectAttempts) && isTransientError message

/-- The delay `scheduleReconnect` sleeps before retry number
`attempts` (the value of `reconnectAttempts` after its increment):
exponential backoff from `reconnectDelay`, capped at 30 s. -/
def scheduleReconnectDelay (attempts : Nat) : Nat :=
  min (reconnectDelay * 2 ^ (attempts - 1)) 30000

/-- Result of the `open` connection loop. -/
inductive OpenResult where
  /-- The `open` event fired: the promise resolves. -/
  | success : OpenResult
  /-- The promise rejects with the given error message. -/
  | failure : List Char → OpenResult
  /-- The supplied outcome script was exhausted with the loop still
  awaiting the next attempt's outcome. -/
  | pending : OpenResult
deriving Repr, DecidableEq

/-- The `attemptConnection` loop of `open`, driven by a script of
per-attempt outcomes (`none` = the attempt emits `open`, `some e` = it
emits an error with message `e`). Returns the list of backoff delays
slept, in order, and the final result. -/
def openLoop (reconnectAttempts : Nat) :
    List (Option (List Char)) → List Nat × OpenResult
  | [] => ([], .pending)
  | none :: _ => ([], .success)
  | some e :: rest =>
    if shouldReconnect reconnectAttempts e then
      let next := reconnectAttempts + 1
      let d := scheduleReconnectDelay next
      let r := openLoop next rest
      (d :: r.1, r.2)
    else ([], .failure e)

/-- The driver state touched by `writeBuffered`: the FIFO write buffer
(each entry the queued bytes), the drain-loop flag and the connection
flag. The promise callbacks attached to each entry are not data. -/
structure DriverState where
  writeBuffer : List (List Nat)
  processingBuffer : Bool
  isConnected : Bool
deriving Repr, DecidableEq

/-- The synchronous enqueue step of `writeBuffered`: when the buffer
already holds `maxBufferSize` entries the write rejects immediately with
"Write buffer overflow" and nothing else happens; otherwise the entry is
appended and the drain loop is started when idle. Returns the new state,
the rejection message if any, and whether a drain was kicked off. -/
def writeBuffered (s : DriverState) (data : List Nat) :
    DriverState × Option (List Char) × Bool :=
  if maxBufferSize ≤ s.writeBuffer.length then
    (s, some "Write buffer overflow".toList, false)
  else
    ({ s with writeBuffer := s.writeBuffer ++ [data] }, none, !s.processingBuffer)

/-! ## Port discovery live test (config.ts, testPortForDataQuick) -/

/-- A discovered channel as recorded by the live test. -/
structure DiscoveredChannel where
  hex : List Char
  number : Nat
  temperature : Rat
deriving Repr, DecidableEq

/-- State of the discovery live test: the set of channel codes seen
(insertion-ordered, duplicate-free) and the map of first non-zero
readings (insertion-ordered association list). -/
structure DiscoveryState where
  allChannelsSeen : List (List Char)
  discoveredChannels : List (List Char × DiscoveredChannel)
deriving Repr, DecidableEq

/-- `Set.prototype.add`. -/
def setInsert (s : List (List Char)) (x : List Char) : List (List Char) :=
  if x ∈ s then s else s ++ [x]

/-- `Map.prototype.has`. -/
def mapHas (m : List (List Char × DiscoveredChannel)) (k : List Char) : Bool :=
  m.any (fun e => e.1 = k)

/-- The per-message body of the `data` handler of `testPortForDataQuick`:
track the channel as seen; record the reading only when the temperature
is defined, non-null and non-zero and the channel has no recorded
reading yet. Messages failing the validity/truthiness guard leave the
state unchanged. -/
def discoveryStep (s : DiscoveryState) (m : ParsedMessage) : DiscoveryState :=
  match m.valid, m.channelHex, m.channelNumber with
  | true, some hex, some num =>
    if hex = [] ∨ num = 0 then s
    else
      let s1 : DiscoveryState :=
        { s with allChannelsSeen := setInsert s.allChannelsSeen hex }
      match m.temperature with
      | some t =>
        if t ≠ 0 ∧ mapHas s1.discoveredChannels hex = false then
          { s1 with discoveredChannels :=
              s1.discoveredChannels ++ [(hex, ⟨hex, num, t⟩)] }
        else s1
      | none => s1
  | _, _, _ => s

/-- Whether a message passes the `data` handler's guard
(`parsed.valid && parsed.channelHex && parsed.channelNumber`). -/
def discoveryGuard (m : ParsedMessage) : Bool :=
  match m.valid, m.channelHex, m.channelNumber with
  | true, some hex, some num => !(decide (hex = [] ∨ num = 0))
  | _, _, _ => false

/-- Running the live test over a stream of parsed messages: after each
guarded message the early-exit check fires as soon as all 12 channel
codes have been seen, resolving the test successfully (`true`) and
ignoring the rest of the stream; an exhausted stream without early exit
is the timeout path (`false`). -/
def processDiscoveryMessages : List ParsedMessage → DiscoveryState → DiscoveryState × Bool
  | [], s => (s, false)
  | m :: rest, s =>
    let s' := discoveryStep s m
    if discoveryGuard m ∧ s'.allChannelsSeen.length = 12 then (s', true)
    else processDiscoveryMessages rest s'

/-! ## Theorems -/

/-- Claim C4: for every channel entry and observation time, the derived
`connected` flag is true iff `lastUpdate` is not the epoch-zero sentinel
and `now - lastUpdate` is strictly below 60 seconds; a fresh reading is
connected, a reading aged 61 seconds with no further writes is not. -/
theorem claim_C4_connected_iff :
    (∀ now lastUpdate : Nat,
      isChannelConnected now lastUpdate = true
        ↔ lastUpdate ≠ 0 ∧ (now : Int) - (lastUpdate : Int) < 60000)
    ∧ (∀ t : Nat, 0 < t → isChannelConnected t t = true)
    ∧ (∀ t : Nat, isChannelConnected (t + 61000) t = false) := by
  refine ⟨fun now lastUpdate => ?_, fun t ht => ?_, fun t => ?_⟩
  · unfold isChannelConnected
    rw [Bool.and_eq_true, decide_eq_true_iff, decide_eq_true_iff]
    constructor
    · rintro ⟨h1, h2⟩
      refine ⟨Nat.pos_iff_ne_zero.mp h2, ?_⟩
      have h3 : ((now : Rat) - (lastUpdate : Rat)) < 60000 := by
        have := (div_lt_iff₀ (by norm_num : (0 : Rat) < 1000)).mp h1
        linarith
      exact_mod_cast h3
    · rintro ⟨h1, h2⟩
      refine ⟨?_, Nat.pos_iff_ne_zero.mpr h1⟩
      rw [div_lt_iff₀ (by norm_num : (0 : Rat) < 1000)]
      have h3 : ((now : Rat) - (lastUpdate : Rat)) < 60000 := by exact_mod_cast h2
      linarith
  · unfold isChannelConnected
    rw [Bool.and_eq_true, decide_eq_true_iff, decide_eq_true_iff]
    exact ⟨by norm_num, ht⟩
  · unfold isChannelConnected
    have h3 : (((t + 61000 : Nat) : Rat) - (t : Rat)) = 61000 := by
      push_cast
      ring
    rw [Bool.and_eq_false_iff]
    left
    rw [decide_eq_false_iff_not, h3]
    norm_num

/-- Witness for C4 at concrete inputs. -/
theorem claim_C4_witness :
    (0 < 5000 ∧ isChannelConnected 5000 5000 = true)
    ∧ isChannelConnected 62000 1000 = false :=
  ⟨⟨by decide, claim_C4_connected_iff.2.1 5000 (by decide)⟩,
    claim_C4_connected_iff.2.2 1000⟩

/-- Claim C7: the write buffer is capped at 1000 pending entries; with
1000 writes pending, one more write is rejected immediately with
"Write buffer overflow", the state (pending writes, drain flag,
connection flag) is untouched and no drain starts; below the cap the
write is appended in FIFO order. -/
theorem claim_C7_write_buffer_cap :
    (∀ (s : DriverState) (data : List Nat), s.writeBuffer.length = 1000 →
      writeBuffered s data = (s, some "Write buffer overflow".toList, false))
    ∧ (∀ (s : DriverState) (data : List Nat), s.writeBuffer.length < 1000 →
      writeBuffered s data =
        ({ s with writeBuffer := s.writeBuffer ++ [data] }, none, !s.processingBuffer)) := by
  constructor
  · intro s data h
    unfold writeBuffered maxBufferSize
    rw [if_pos (by omega)]
  · intro s data h
    unfold writeBuffered maxBufferSize
    rw [if_neg (by omega)]

/-- Witness for C7: a concrete driver state with exactly 1000 pending
writes rejects the 1001st write and keeps its state. -/
theorem claim_C7_witness :
    (DriverState.mk (List.replicate 1000 [0]) true true).writeBuffer.length = 1000
    ∧ writeBuffered (DriverState.mk (List.replicate 1000 [0]) true true) [7]
        = (DriverState.mk (List.replicate 1000 [0]) true true,
            some "Write buffer overflow".toList, false) :=
  ⟨List.length_replicate 1000 [0], claim_C7_write_buffer_cap.1 _ [7] (List.length_replicate 1000 [0])⟩

/-- A digit character's code point minus 48 is at most 9. -/
theorem digit_toNat_le (c : Char) (hc : c.isDigit = true) : c.toNat - 48 ≤ 9 := by
  simp [Char.isDigit] at hc
  obtain ⟨h1, h2⟩ := hc
  have h3 : c.val.toNat ≤ 57 := by exact_mod_cast h2
  have h4 : c.toNat = c.val.toNat := rfl
  omega

/-- Accumulator bound for `digitsToNatAux` over digit-only strings. -/
theorem digitsToNatAux_lt (l : List Char) : ∀ acc : Nat,
    (∀ c ∈ l, c.isDigit = true) → digitsToNatAux acc l < (acc + 1) * 10 ^ l.length := by
  induction l with
  | nil =>
    intro acc _
    show acc < (acc + 1) * 10 ^ 0
    simp
  | cons c rest ih =>
    intro acc h
    have hd : c.toNat - 48 ≤ 9 := digit_toNat_le c (h c (List.mem_cons_self c rest))
    have h1 := ih (acc * 10 + (c.toNat - 48)) (fun x hx => h x (List.mem_cons_of_mem c hx))
    have h2 : (acc * 10 + (c.toNat - 48) + 1) * 10 ^ rest.length
        ≤ ((acc + 1) * 10) * 10 ^ rest.length := by
      have h5 : acc * 10 + (c.toNat - 48) + 1 ≤ (acc + 1) * 10 := by omega
      exact Nat.mul_le_mul_right _ h5
    have h3 : ((acc + 1) * 10) * 10 ^ rest.length = (acc + 1) * 10 ^ (rest.length + 1) := by
      rw [Nat.pow_succ]
      ring
    have h0 : digitsToNatAux acc (c :: rest)
        = digitsToNatAux (acc * 10 + (c.toNat - 48)) rest := rfl
    rw [h0, List.length_cons]
    omega

/-- An all-digit string of length `n` parses below `10 ^ n`. -/
theorem digitsToNat_lt (l : List Char) (h : ∀ c ∈ l, c.isDigit = true) :
    digitsToNat l < 10 ^ l.length := by
  have h1 := digitsToNatAux_lt l 0 h
  simpa [digitsToNat] using h1

-- the last-3-digit number is below 1000
/-- The number taken from the last 3 scrubbed digits is below 1000. -/
theorem last3_lt_1000 (remaining : List Char)
    (h3 : ¬ (remaining.filter Char.isDigit).length < 3) :
    digitsToNat ((remaining.filter Char.isDigit).drop
      ((remaining.filter Char.isDigit).length - 3)) < 1000 := by
  set digits := remaining.filter Char.isDigit with hdig
  have hlen : (digits.drop (digits.length - 3)).length = 3 := by
    rw [List.length_drop]
    omega
  have hall : ∀ c ∈ digits.drop (digits.length - 3), c.isDigit = true := by
    intro c hc
    have hmem : c ∈ digits := List.mem_of_mem_drop hc
    rw [hdig] at hmem
    exact (List.mem_filter.mp hmem).2
  have := digitsToNat_lt _ hall
  rw [hlen] at this
  simpa using this

-- the range check never fires on a 3-digit magnitude
/-- The range check of the parser never fires on a magnitude built
from 3 digits: the temperature lies strictly between -100 and 100. -/
theorem range_check_passes (d : Nat) (hd : d < 1000) (pol : Char) :
    ¬ ((if pol = '1' then -((d : Rat) / 10) else (d : Rat) / 10) < -200
        ∨ (if pol = '1' then -((d : Rat) / 10) else (d : Rat) / 10) > 2000) := by
  have h0 : (0 : Rat) ≤ (d : Rat) / 10 := by positivity
  have h1 : (d : Rat) / 10 < 100 := by
    rw [div_lt_iff₀ (by norm_num : (0 : Rat) < 10)]
    exact_mod_cast (by omega : d < 1000)
  split <;> push_neg <;> constructor <;> linarith

/-- Shape of `parseHH4208SDMessage` on a structurally valid frame with a
full 6-byte header: either the no-digits `ParseError` (which carries the
channel fields) or the valid reading; the range-check branch is shown
unreachable. -/
theorem parse_eq_long (c0 p c u1 u2 pol dec : Char) (remaining : List Char) (n : Nat)
    (hv : isValidHH4208SDFormat (c0 :: p :: c :: u1 :: u2 :: pol :: dec :: remaining) = true)
    (hch : CHANNEL_MAP [p.toUpper, c.toUpper] = some n) :
    parseHH4208SDMessage (c0 :: p :: c :: u1 :: u2 :: pol :: dec :: remaining) =
      if (remaining.filter Char.isDigit).length < 3 then
        { valid := false
          channelHex := some [p.toUpper, c.toUpper]
          channelNumber := some n
          sensorData := some remaining
          error := some ("No temperature digits found in: \"".toList ++ remaining
            ++ "\" (cleaned: \"".toList ++ remaining.filter Char.isDigit ++ "\")".toList) }
      else
        { valid := true
          channelHex := some [p.toUpper, c.toUpper]
          channelNumber := some n
          temperature := some (if pol = '1'
            then -((digitsToNat ((remaining.filter Char.isDigit).drop
                ((remaining.filter Char.isDigit).length - 3)) : Rat) / 10)
            else (digitsToNat ((remaining.filter Char.isDigit).drop
                ((remaining.filter Char.isDigit).length - 3)) : Rat) / 10)
          temperatureUnit := some (if [u1, u2] = ['0', '1'] then "C".toList
            else if [u1, u2] = ['0', '2'] then "F".toList else "Unknown".toList)
          polarity := some (if pol = '0' then '+' else '-')
          decimalPoint := some (charDigit? dec)
          sensorData := some remaining } := by
  by_cases h3 : (remaining.filter Char.isDigit).length < 3
  · simp only [parseHH4208SDMessage, hv, hch, if_pos h3]
    simp
  · simp only [parseHH4208SDMessage, hv, hch, if_neg h3]
    rw [if_neg (range_check_passes _ (last3_lt_1000 remaining h3) pol)]
    simp

/-- Shape of `parseHH4208SDMessage` on a frame failing structural
validation: an error-only result. -/
theorem parse_eq_invalid (msg : List Char) (hv : isValidHH4208SDFormat msg = false) :
    parseHH4208SDMessage msg =
      { valid := false
        error := some (if msg.length < 3 then "Message too short".toList
          else if (msg.headD STX).toNat != 2 then "Missing STX header".toList
          else "Invalid channel identifier".toList) } := by
  unfold parseHH4208SDMessage
  rw [if_pos hv]

/-- Shape of `parseHH4208SDMessage` on a structurally valid frame whose
body is shorter than the 6-byte header: an error-only result. -/
theorem parse_eq_too_short (c0 : Char) (data : List Char)
    (hv : isValidHH4208SDFormat (c0 :: data) = true) (hlen : data.length < 6) :
    parseHH4208SDMessage (c0 :: data) =
      { valid := false
        error := some ("Message too short: ".toList ++ strNat data.length
          ++ " chars, need at least 6".toList) } := by
  unfold parseHH4208SDMessage
  rw [if_neg (by simp [hv])]
  rcases data with _ | ⟨a, _ | ⟨b, _ | ⟨c, _ | ⟨d, _ | ⟨e, _ | ⟨f, rest⟩⟩⟩⟩⟩⟩
  · rfl
  · rfl
  · rfl
  · rfl
  · rfl
  · rfl
  · simp at hlen
    omega

/-- Structural validity yields a channel number for the uppercased
channel identifier. -/
theorem channel_of_valid (c0 p c : Char) (rest : List Char)
    (hv : isValidHH4208SDFormat (c0 :: p :: c :: rest) = true) :
    ∃ n, CHANNEL_MAP [p.toUpper, c.toUpper] = some n := by
  simp only [isValidHH4208SDFormat] at hv
  rw [if_neg] at hv
  · simpa [Option.isSome_iff_exists] using hv
  · intro hcond
    rw [hcond] at hv
    exact Bool.false_ne_true hv

/-- Claim C9 (amended): the parse result is a tagged alternative -- a
valid result has every reading field populated and no error, an invalid
result carries an error and never the temperature, unit, polarity or
decimal-point fields; however digit-count and range failures do carry
the diagnostic channelHex, channelNumber and sensorData fields. -/
theorem claim_C9_tagged : ∀ msg : List Char,
    ((parseHH4208SDMessage msg).valid = true →
      (parseHH4208SDMessage msg).channelHex.isSome = true
      ∧ (parseHH4208SDMessage msg).channelNumber.isSome = true
      ∧ (parseHH4208SDMessage msg).temperature.isSome = true
      ∧ (parseHH4208SDMessage msg).temperatureUnit.isSome = true
      ∧ (parseHH4208SDMessage msg).polarity.isSome = true
      ∧ (parseHH4208SDMessage msg).decimalPoint.isSome = true
      ∧ (parseHH4208SDMessage msg).sensorData.isSome = true
      ∧ (parseHH4208SDMessage msg).error = none)
    ∧ ((parseHH4208SDMessage msg).valid = false →
      (parseHH4208SDMessage msg).temperature = none
      ∧ (parseHH4208SDMessage msg).temperatureUnit = none
      ∧ (parseHH4208SDMessage msg).polarity = none
      ∧ (parseHH4208SDMessage msg).decimalPoint = none
      ∧ (parseHH4208SDMessage msg).error.isSome = true) := by
  intro msg
  by_cases hv : isValidHH4208SDFormat msg = true
  · cases msg with
    | nil => simp [isValidHH4208SDFormat] at hv
    | cons c0 data =>
      by_cases hlen : data.length < 6
      · rw [parse_eq_too_short c0 data hv hlen]
        simp
      · rcases data with _ | ⟨p, _ | ⟨c, _ | ⟨u1, _ | ⟨u2, _ | ⟨pol, _ | ⟨dec, remaining⟩⟩⟩⟩⟩⟩
        · simp at hlen
        · simp at hlen
        · simp at hlen
        · simp at hlen
        · simp at hlen
        · simp at hlen
        · obtain ⟨n, hch⟩ := channel_of_valid c0 p c _ hv
          rw [parse_eq_long c0 p c u1 u2 pol dec remaining n hv hch]
          split
          · simp
          · simp
  · have hv' : isValidHH4208SDFormat msg = false := by
      simpa using hv
    rw [parse_eq_invalid msg hv']
    simp

/-- When the pre-range-check temperature is defined, the parse succeeds
with exactly that temperature, and the temperature lies strictly between
-100 and 100 (so the range check is unreachable). -/
theorem computedTemperature_spec (msg : List Char) (t : Rat)
    (h : computedTemperature msg = some t) :
    (parseHH4208SDMessage msg).valid = true
    ∧ (parseHH4208SDMessage msg).temperature = some t
    ∧ -100 < t ∧ t < 100 := by
  by_cases hv : isValidHH4208SDFormat msg = true
  · cases msg with
    | nil => simp [isValidHH4208SDFormat] at hv
    | cons c0 data =>
      rcases data with _ | ⟨p, _ | ⟨c, _ | ⟨u1, _ | ⟨u2, _ | ⟨pol, _ | ⟨dec, remaining⟩⟩⟩⟩⟩⟩
      · simp [computedTemperature, hv] at h
      · simp [computedTemperature, hv] at h
      · simp [computedTemperature, hv] at h
      · simp [computedTemperature, hv] at h
      · simp [computedTemperature, hv] at h
      · simp [computedTemperature, hv] at h
      · obtain ⟨n, hch⟩ := channel_of_valid c0 p c _ hv
        unfold computedTemperature at h
        rw [if_neg (by simp [hv])] at h
        have h2 : (match CHANNEL_MAP [p.toUpper, c.toUpper] with
            | none => (none : Option Rat)
            | some _ =>
              if (remaining.filter Char.isDigit).length < 3 then none
              else
                some (if pol = '1'
                  then -((digitsToNat ((remaining.filter Char.isDigit).drop
                      ((remaining.filter Char.isDigit).length - 3)) : Rat) / 10)
                  else (digitsToNat ((remaining.filter Char.isDigit).drop
                      ((remaining.filter Char.isDigit).length - 3)) : Rat) / 10)) = some t := h
        rw [hch] at h2
        by_cases h3 : (remaining.filter Char.isDigit).length < 3
        · rw [if_pos h3] at h2
          exact absurd h2 (by simp)
        · rw [if_neg h3] at h2
          have hteq := Option.some.inj h2
          have hd := last3_lt_1000 remaining h3
          have hb1 : (0 : Rat) ≤ (digitsToNat ((remaining.filter Char.isDigit).drop
              ((remaining.filter Char.isDigit).length - 3)) : Rat) / 10 := by positivity
          have hb2 : (digitsToNat ((remaining.filter Char.isDigit).drop
              ((remaining.filter Char.isDigit).length - 3)) : Rat) / 10 < 100 := by
            rw [div_lt_iff₀ (by norm_num : (0 : Rat) < 10)]
            exact_mod_cast (by omega : digitsToNat ((remaining.filter Char.isDigit).drop
              ((remaining.filter Char.isDigit).length - 3)) < 1000)
          rw [parse_eq_long c0 p c u1 u2 pol dec remaining n hv hch, if_neg h3]
          refine ⟨rfl, ?_, ?_, ?_⟩
          · rw [← hteq]
          · rw [← hteq]
            split <;> linarith
          · rw [← hteq]
            split <;> linarith
  · have hv' : isValidHH4208SDFormat msg = false := by simpa using hv
    unfold computedTemperature at h
    rw [if_pos hv'] at h
    exact absurd h (by simp)

/-- Claim C5: `parseHH4208SDMessage` rejects as `ParseError` every frame
whose computed temperature falls outside [-200.0, 2000.0], and accepts
every frame whose computed temperature lies within the closed interval
(in particular the boundary values 200.0, -200.0 and 2000.0 are
accepted and 2000.1 / -200.1 rejected, wherever such a computed
temperature arises). -/
theorem claim_C5_range :
    ∀ (msg : List Char) (t : Rat), computedTemperature msg = some t →
      ((t < -200 ∨ 2000 < t) →
        (parseHH4208SDMessage msg).valid = false
        ∧ (parseHH4208SDMessage msg).error.isSome = true)
      ∧ (-200 ≤ t ∧ t ≤ 2000 →
        (parseHH4208SDMessage msg).valid = true
        ∧ (parseHH4208SDMessage msg).temperature = some t) := by
  intro msg t h
  obtain ⟨h1, h2, h3, h4⟩ := computedTemperature_spec msg t h
  constructor
  · rintro (hb | hb) <;> [linarith; linarith]
  · intro _
    exact ⟨h1, h2⟩

/-- Witness for C5 at a concrete frame computing temperature 12.3. -/
theorem claim_C5_witness :
    computedTemperature (STX :: '4' :: '1' :: '0' :: '1' :: '0' :: '1' :: "005123".toList) = some (123 / 10 : Rat)
    ∧ ((-200 : Rat) ≤ 123 / 10 ∧ (123 / 10 : Rat) ≤ 2000)
    ∧ ((parseHH4208SDMessage (STX :: '4' :: '1' :: '0' :: '1' :: '0' :: '1' :: "005123".toList)).valid = true
      ∧ (parseHH4208SDMessage (STX :: '4' :: '1' :: '0' :: '1' :: '0' :: '1' :: "005123".toList)).temperature
          = some (123 / 10 : Rat)) :=
  ⟨by rfl, ⟨by norm_num, by norm_num⟩,
    (claim_C5_range _ (123 / 10 : Rat) (by rfl)).2 ⟨by norm_num, by norm_num⟩⟩

/-- Claim C1: on every frame passing structural validation, the parser
scrubs the payload (the bytes after the 6-byte header) of non-digits,
takes the integer value of the last 3 digits divided by 10, negates on
polarity byte '1' (any other polarity byte leaves it positive), and
errors when fewer than 3 digits remain; the synthesized channel-"41"
frame with payload digits "005123" yields channelNumber 1 and
temperature 12.3. -/
theorem claim_C1_magnitude :
    (∀ msg : List Char, isValidHH4208SDFormat msg = true →
      (3 ≤ ((msg.drop 7).filter Char.isDigit).length →
        (parseHH4208SDMessage msg).valid = true
        ∧ (parseHH4208SDMessage msg).temperature = some
            (if msg.getD 5 ' ' = '1'
             then -((digitsToNat (((msg.drop 7).filter Char.isDigit).drop
                 (((msg.drop 7).filter Char.isDigit).length - 3)) : Rat) / 10)
             else (digitsToNat (((msg.drop 7).filter Char.isDigit).drop
                 (((msg.drop 7).filter Char.isDigit).length - 3)) : Rat) / 10))
      ∧ (((msg.drop 7).filter Char.isDigit).length < 3 →
        (parseHH4208SDMessage msg).valid = false
        ∧ (parseHH4208SDMessage msg).error.isSome = true))
    ∧ (parseHH4208SDMessage (STX :: '4' :: '1' :: '0' :: '1' :: '0' :: '1' :: "005123".toList)).channelNumber = some 1
    ∧ (parseHH4208SDMessage (STX :: '4' :: '1' :: '0' :: '1' :: '0' :: '1' :: "005123".toList)).temperature
        = some (123 / 10 : Rat) := by
  refine ⟨?_, ?_, ?_⟩
  case refine_2 =>
    rw [parse_eq_long STX '4' '1' '0' '1' '0' '1' "005123".toList 1 (by decide) (by decide)]
    rw [if_neg (by decide)]
  case refine_3 =>
    rw [parse_eq_long STX '4' '1' '0' '1' '0' '1' "005123".toList 1 (by decide) (by decide)]
    rw [if_neg (by decide)]
    have hd : digitsToNat (("005123".toList.filter Char.isDigit).drop
        (("005123".toList.filter Char.isDigit).length - 3)) = 123 := by decide
    simp only [hd]
    norm_num
    decide
  intro msg hv
  cases msg with
  | nil => simp [isValidHH4208SDFormat] at hv
  | cons c0 data =>
    by_cases hlen : data.length < 6
    · have hdrop : ((c0 :: data).drop 7) = [] := by
        apply List.drop_eq_nil_of_le
        simp
        omega
      rw [parse_eq_too_short c0 data hv hlen, hdrop]
      constructor
      · intro habs
        simp at habs
      · intro _
        simp
    · rcases data with _ | ⟨p, _ | ⟨c, _ | ⟨u1, _ | ⟨u2, _ | ⟨pol, _ | ⟨dec, remaining⟩⟩⟩⟩⟩⟩
      · simp at hlen
      · simp at hlen
      · simp at hlen
      · simp at hlen
      · simp at hlen
      · simp at hlen
      · obtain ⟨n, hch⟩ := channel_of_valid c0 p c _ hv
        rw [parse_eq_long c0 p c u1 u2 pol dec remaining n hv hch]
        have hdrop : ((c0 :: p :: c :: u1 :: u2 :: pol :: dec :: remaining).drop 7) = remaining := rfl
        have hget : (c0 :: p :: c :: u1 :: u2 :: pol :: dec :: remaining).getD 5 ' ' = pol := rfl
        rw [hdrop, hget]
        constructor
        · intro hge
          rw [if_neg (by omega)]
          refine ⟨rfl, rfl⟩
        · intro hlt
          rw [if_pos hlt]
          exact ⟨rfl, rfl⟩

/-- Witness for C1 at the synthesized round-trip frame. -/
theorem claim_C1_witness :
    isValidHH4208SDFormat (STX :: '4' :: '1' :: '0' :: '1' :: '0' :: '1' :: "005123".toList) = true
    ∧ 3 ≤ (((STX :: '4' :: '1' :: '0' :: '1' :: '0' :: '1' :: "005123".toList).drop 7).filter Char.isDigit).length
    ∧ ((parseHH4208SDMessage (STX :: '4' :: '1' :: '0' :: '1' :: '0' :: '1' :: "005123".toList)).valid = true
      ∧ (parseHH4208SDMessage (STX :: '4' :: '1' :: '0' :: '1' :: '0' :: '1' :: "005123".toList)).temperature = some
          (if (STX :: '4' :: '1' :: '0' :: '1' :: '0' :: '1' :: "005123".toList).getD 5 ' ' = '1'
           then -((digitsToNat ((((STX :: '4' :: '1' :: '0' :: '1' :: '0' :: '1' :: "005123".toList).drop 7).filter
               Char.isDigit).drop
               ((((STX :: '4' :: '1' :: '0' :: '1' :: '0' :: '1' :: "005123".toList).drop 7).filter
                 Char.isDigit).length - 3)) : Rat) / 10)
           else (digitsToNat ((((STX :: '4' :: '1' :: '0' :: '1' :: '0' :: '1' :: "005123".toList).drop 7).filter
               Char.isDigit).drop
               ((((STX :: '4' :: '1' :: '0' :: '1' :: '0' :: '1' :: "005123".toList).drop 7).filter
                 Char.isDigit).length - 3)) : Rat) / 10)) :=
  ⟨by decide, by decide,
    ((claim_C1_magnitude.1 _ (by decide)).1 (by decide))⟩

/-- Claim C9 counterexample: a structurally valid frame with an empty
payload parses to an invalid result that nevertheless carries the
reading fields `channelHex` and `channelNumber`. -/
theorem claim_C9_counterexample :
    (parseHH4208SDMessage (STX :: "410100".toList)).valid = false
    ∧ (parseHH4208SDMessage (STX :: "410100".toList)).channelHex = some "41".toList
    ∧ (parseHH4208SDMessage (STX :: "410100".toList)).channelNumber = some 1 := by
  decide

/-- Witness for the amended C9 at a concrete invalid frame. -/
theorem claim_C9_witness :
    (parseHH4208SDMessage (STX :: "410100".toList)).valid = false
    ∧ ((parseHH4208SDMessage (STX :: "410100".toList)).temperature = none
      ∧ (parseHH4208SDMessage (STX :: "410100".toList)).temperatureUnit = none
      ∧ (parseHH4208SDMessage (STX :: "410100".toList)).polarity = none
      ∧ (parseHH4208SDMessage (STX :: "410100".toList)).decimalPoint = none
      ∧ (parseHH4208SDMessage (STX :: "410100".toList)).error.isSome = true) :=
  ⟨by decide, (claim_C9_tagged (STX :: "410100".toList)).2 (by decide)⟩

/-- Claim C8: during the discovery live test, a valid reading of exactly
0 is excluded from the recorded channels but still counted as observed;
only the first non-zero reading per channel code is recorded (later ones
leave the record unchanged); and the test terminates early and
successfully as soon as all 12 channel codes have been observed,
regardless of how many yielded non-zero readings. -/
theorem claim_C8_discovery :
    (∀ (s : DiscoveryState) (m : ParsedMessage) (hex : List Char) (num : Nat),
      m.valid = true → m.channelHex = some hex → m.channelNumber = some num →
      hex ≠ [] → num ≠ 0 → m.temperature = some 0 →
      (discoveryStep s m).discoveredChannels = s.discoveredChannels
      ∧ (discoveryStep s m).allChannelsSeen = setInsert s.allChannelsSeen hex)
    ∧ (∀ (s : DiscoveryState) (m : ParsedMessage) (hex : List Char) (num : Nat) (t : Rat),
      m.valid = true → m.channelHex = some hex → m.channelNumber = some num →
      hex ≠ [] → num ≠ 0 → m.temperature = some t → t ≠ 0 →
      mapHas s.discoveredChannels hex = false →
      (discoveryStep s m).discoveredChannels
        = s.discoveredChannels ++ [(hex, ⟨hex, num, t⟩)])
    ∧ (∀ (s : DiscoveryState) (m : ParsedMessage) (hex : List Char) (num : Nat) (t : Rat),
      m.valid = true → m.channelHex = some hex → m.channelNumber = some num →
      hex ≠ [] → num ≠ 0 → m.temperature = some t →
      mapHas s.discoveredChannels hex = true →
      (discoveryStep s m).discoveredChannels = s.discoveredChannels)
    ∧ (∀ (m : ParsedMessage) (rest : List ParsedMessage) (s : DiscoveryState),
      discoveryGuard m = true →
      ((discoveryStep s m).allChannelsSeen.length = 12 →
        processDiscoveryMessages (m :: rest) s = (discoveryStep s m, true))
      ∧ ((discoveryStep s m).allChannelsSeen.length ≠ 12 →
        processDiscoveryMessages (m :: rest) s
          = processDiscoveryMessages rest (discoveryStep s m))) := by
  refine ⟨?_, ?_, ?_, ?_⟩
  · intro s m hex num hval hhex hnum hne hnz ht
    simp only [discoveryStep, hval, hhex, hnum, ht]
    rw [if_neg (by simp [hne, hnz])]
    rw [if_neg (by simp)]
    exact ⟨rfl, rfl⟩
  · intro s m hex num t hval hhex hnum hne hnz ht htnz hhas
    simp only [discoveryStep, hval, hhex, hnum, ht]
    rw [if_neg (by simp [hne, hnz])]
    rw [if_pos ⟨htnz, hhas⟩]
  · intro s m hex num t hval hhex hnum hne hnz ht hhas
    simp only [discoveryStep, hval, hhex, hnum, ht]
    rw [if_neg (by simp [hne, hnz])]
    rw [if_neg (by simp [hhas])]
  · intro m rest s hguard
    constructor
    · intro h12
      conv_lhs => unfold processDiscoveryMessages
      rw [if_pos ⟨hguard, h12⟩]
    · intro h12
      conv_lhs => unfold processDiscoveryMessages
      rw [if_neg (by simp [h12])]

/-- Witness for C8: a zero reading is counted as observed but not
recorded, and observing the 12th channel code exits early with success
while no channel was recorded. -/
theorem claim_C8_witness :
    ((ParsedMessage.mk true (some "41".toList) (some 1) (some 0) none none none none none).valid = true
      ∧ (discoveryStep (DiscoveryState.mk [] [])
          (ParsedMessage.mk true (some "41".toList) (some 1) (some 0) none none none none none)).discoveredChannels = []
      ∧ (discoveryStep (DiscoveryState.mk [] [])
          (ParsedMessage.mk true (some "41".toList) (some 1) (some 0) none none none none none)).allChannelsSeen
          = setInsert [] "41".toList)
    ∧ processDiscoveryMessages
        [ParsedMessage.mk true (some "4C".toList) (some 12) none none none none none none]
        (DiscoveryState.mk
          ["41".toList, "42".toList, "43".toList, "44".toList, "45".toList, "46".toList,
            "47".toList, "48".toList, "49".toList, "4A".toList, "4B".toList] [])
        = (discoveryStep
            (DiscoveryState.mk
              ["41".toList, "42".toList, "43".toList, "44".toList, "45".toList, "46".toList,
                "47".toList, "48".toList, "49".toList, "4A".toList, "4B".toList] [])
            (ParsedMessage.mk true (some "4C".toList) (some 12) none none none none none none),
          true) :=
  ⟨⟨rfl,
    (claim_C8_discovery.1 (DiscoveryState.mk [] [])
      (ParsedMessage.mk true (some "41".toList) (some 1) (some 0) none none none none none)
      "41".toList 1 rfl rfl rfl (by decide) (by decide) rfl).1,
    (claim_C8_discovery.1 (DiscoveryState.mk [] [])
      (ParsedMessage.mk true (some "41".toList) (some 1) (some 0) none none none none none)
      "41".toList 1 rfl rfl rfl (by decide) (by decide) rfl).2⟩,
    (claim_C8_discovery.2.2.2
      (ParsedMessage.mk true (some "4C".toList) (some 12) none none none none none none)
      []
      (DiscoveryState.mk
        ["41".toList, "42".toList, "43".toList, "44".toList, "45".toList, "46".toList,
          "47".toList, "48".toList, "49".toList, "4A".toList, "4B".toList] [])
      (by decide)).1 (by decide)⟩

/-- Unrolling of the connection loop over a script of transient errors:
each error schedules one backoff delay and increments the attempt
counter. -/
theorem openLoop_transient_script (errs : List (List Char)) : ∀ (k : Nat) (rest : List (Option (List Char))),
    (∀ e ∈ errs, isTransientError e = true) → k + errs.length ≤ 10 →
    openLoop k (errs.map some ++ rest)
      = ((List.range errs.length).map (fun i => scheduleReconnectDelay (k + i + 1))
          ++ (openLoop (k + errs.length) rest).1,
        (openLoop (k + errs.length) rest).2) := by
  induction errs with
  | nil =>
    intro k rest _ _
    simp
  | cons e errs ih =>
    intro k rest h hk
    have he : isTransientError e = true := h e (List.mem_cons_self e errs)
    have hk' : k + (errs.length + 1) ≤ 10 := by simpa using hk
    have hsr : shouldReconnect k e = true := by
      unfold shouldReconnect maxReconnectAttempts
      rw [he]
      simp
      omega
    have ihk := ih (k + 1) rest (fun x hx => h x (List.mem_cons_of_mem e hx))
      (by omega)
    have lhs_eq : openLoop k ((e :: errs).map some ++ rest)
        = (scheduleReconnectDelay (k + 1) :: (openLoop (k + 1) (errs.map some ++ rest)).1,
          (openLoop (k + 1) (errs.map some ++ rest)).2) := by
      show openLoop k (some e :: (errs.map some ++ rest)) = _
      conv_lhs => unfold openLoop
      rw [if_pos hsr]
    rw [lhs_eq, ihk]
    simp only [List.length_cons]
    rw [show k + (errs.length + 1) = k + 1 + errs.length by omega]
    rw [Prod.mk.injEq]
    refine ⟨?_, rfl⟩
    rw [List.range_succ_eq_map, List.map_cons, List.map_map]
    have hmap : List.map ((fun i => scheduleReconnectDelay (k + i + 1)) ∘ Nat.succ)
        (List.range errs.length)
        = List.map (fun i => scheduleReconnectDelay (k + 1 + i + 1)) (List.range errs.length) := by
      apply List.map_congr_left
      intro i _
      simp only [Function.comp_apply]
      congr 1
      omega
    rw [hmap, List.cons_append]

/-- Claim C6 (amended): the driver retries an open failure with
exponential backoff only when the error message contains "cannot open",
"disconnected" or "Device or resource busy" -- the delay before the n-th
retry is 1s doubled per attempt and capped at 30s (concretely 1s, 2s,
4s, 8s, 16s, then 30s repeated); after the 10th retry attempt fails the
open fails permanently with the last error; every other error -- in
particular the driver's own rewritten permission-denied message, which
contains none of those substrings -- fails immediately with no retry. -/
theorem claim_C6_backoff :
    (∀ errs : List (List Char), (∀ e ∈ errs, isTransientError e = true) →
      errs.length ≤ 10 →
      openLoop 0 (errs.map some ++ [none])
        = ((List.range errs.length).map (fun i => scheduleReconnectDelay (i + 1)),
            OpenResult.success))
    ∧ (∀ (errs : List (List Char)) (lastErr : List Char) (rest : List (Option (List Char))),
      (∀ e ∈ errs, isTransientError e = true) → errs.length = 10 →
      openLoop 0 (errs.map some ++ some lastErr :: rest)
        = ((List.range 10).map (fun i => scheduleReconnectDelay (i + 1)),
            OpenResult.failure lastErr))
    ∧ (∀ (e : List Char) (rest : List (Option (List Char))),
      isTransientError e = false →
      openLoop 0 (some e :: rest) = ([], OpenResult.failure e))
    ∧ (List.range 10).map (fun i => scheduleReconnectDelay (i + 1))
        = [1000, 2000, 4000, 8000, 16000, 30000, 30000, 30000, 30000, 30000] := by
  refine ⟨?_, ?_, ?_, by decide⟩
  · intro errs h hlen
    rw [openLoop_transient_script errs 0 [none] h (by omega)]
    have hs : openLoop (0 + errs.length) [none] = ([], OpenResult.success) := rfl
    rw [hs]
    simp
  · intro errs lastErr rest h hlen
    rw [openLoop_transient_script errs 0 (some lastErr :: rest) h (by omega)]
    have hs : openLoop (0 + errs.length) (some lastErr :: rest)
        = ([], OpenResult.failure lastErr) := by
      conv_lhs => unfold openLoop
      rw [if_neg (by simp [shouldReconnect, maxReconnectAttempts, hlen])]
    rw [hs, hlen]
    simp
  · intro e rest h
    have hsr : shouldReconnect 0 e = false := by
      unfold shouldReconnect
      rw [h]
      simp
    conv_lhs => unfold openLoop
    rw [if_neg (by simp [hsr])]

/-- Claim C6 counterexample: a permission-denied open failure is not
retried. The driver classifies a permission failure on its diagnostic
stream by emitting exactly this message (part of its error
classification), the message matches none of the substrings
`shouldReconnect` retries on, and the connection loop fails immediately
with no backoff delay even though the very next attempt would have
succeeded -- refuting the claim that permission-denied errors are
transient and retried with backoff. -/
theorem claim_C6_counterexample :
    isTransientError
      "Permission denied accessing /dev/ttyUSB0. Try running with appropriate permissions.".toList
      = false
    ∧ shouldReconnect 0
        "Permission denied accessing /dev/ttyUSB0. Try running with appropriate permissions.".toList
      = false
    ∧ openLoop 0
        [some "Permission denied accessing /dev/ttyUSB0. Try running with appropriate permissions.".toList,
          none]
      = ([], OpenResult.failure
          "Permission denied accessing /dev/ttyUSB0. Try running with appropriate permissions.".toList) := by
  decide

/-- Witness for C6: eleven consecutive transient failures produce the
capped delay sequence and a permanent failure with the last error; a
non-transient error fails with no delays. -/
theorem claim_C6_witness :
    ((∀ e ∈ List.replicate 10 "cannot open /dev/ttyUSB0".toList, isTransientError e = true)
      ∧ (List.replicate 10 "cannot open /dev/ttyUSB0".toList).length = 10
      ∧ openLoop 0 ((List.replicate 10 "cannot open /dev/ttyUSB0".toList).map some
          ++ some "cannot open /dev/ttyUSB0".toList :: [])
        = ([1000, 2000, 4000, 8000, 16000, 30000, 30000, 30000, 30000, 30000],
            OpenResult.failure "cannot open /dev/ttyUSB0".toList))
    ∧ (isTransientError "Unsupported platform: aix".toList = false
      ∧ openLoop 0 [some "Unsupported platform: aix".toList]
        = ([], OpenResult.failure "Unsupported platform: aix".toList)) := by
  refine ⟨⟨by decide, by decide, ?_⟩, by decide, ?_⟩
  · rw [claim_C6_backoff.2.1 _ _ [] (by decide) (by decide)]
    rw [claim_C6_backoff.2.2.2]
  · exact claim_C6_backoff.2.2.1 _ [] (by decide)

/-- Single-step preservation for the channel store: an existing entry is
never recreated, and the fields written at creation (config, detected,
firstSeen, dataloggerID, dataloggerName) never change afterwards. -/
theorem processValidMessage_preserves (cfg : AppConfig)
    (dp : List Char → Option DataloggerInfo) (parsed : ParsedMessage)
    (dlID : List Char) (now : Nat) (s : StoreState) (key : List Char) (e : ChannelData)
    (h : s.channelData key = some e) :
    ∃ e', (processValidMessage cfg dp parsed dlID now s).channelData key = some e'
      ∧ e'.config = e.config ∧ e'.detected = e.detected ∧ e'.firstSeen = e.firstSeen
      ∧ e'.dataloggerID = e.dataloggerID ∧ e'.dataloggerName = e.dataloggerName := by
  unfold processValidMessage
  split
  · rename_i hex num temp hv hh hn ht
    split
    · exact ⟨e, h, rfl, rfl, rfl, rfl, rfl⟩
    · rename_i hguard
      split
      · exact ⟨e, h, rfl, rfl, rfl, rfl, rfl⟩
      · rename_i info hdp
        dsimp only
        split
        · rename_i hck
          split at hck
          · rename_i a heq
            rw [heq] at hck
            cases hck
          · rename_i heq
            simp at hck
        · rename_i entry hck
          by_cases hkey : key = createChannelKey dlID hex
          · subst hkey
            split at hck
            · rename_i a heq
              rw [h] at hck
              have he : entry = e := (Option.some.inj hck).symm
              subst he
              exact ⟨{ entry with
                        temperature := temp
                        lastUpdate := now
                        dataCount := entry.dataCount + 1 },
                by simp, rfl, rfl, rfl, rfl, rfl⟩
            · rename_i heq
              rw [h] at heq
              cases heq
          · split at hck
            · rename_i a heq
              refine ⟨e, ?_, rfl, rfl, rfl, rfl, rfl⟩
              simp [hkey, h]
            · rename_i heq
              refine ⟨e, ?_, rfl, rfl, rfl, rfl, rfl⟩
              simp [hkey, h]
  · exact ⟨e, h, rfl, rfl, rfl, rfl, rfl⟩

/-- Claim C3: for every (dataloggerID, channelCode) key, processing any
sequence of readings creates at most one channel entry -- once an entry
exists it persists, and only its temperature, lastUpdate and sample
count may change: displayName/config, thermocouple type, channel number,
firstSeen, the auto-detected flag and the datalogger identity are
unchanged for the entry's lifetime. -/
theorem claim_C3_entry_stability :
    ∀ (cfg : AppConfig) (dp : List Char → Option DataloggerInfo)
      (events : List ReadingEvent) (s : StoreState) (key : List Char) (e : ChannelData),
      s.channelData key = some e →
      ∃ e', (processMany cfg dp events s).channelData key = some e'
        ∧ e'.config = e.config ∧ e'.detected = e.detected ∧ e'.firstSeen = e.firstSeen
        ∧ e'.dataloggerID = e.dataloggerID ∧ e'.dataloggerName = e.dataloggerName := by
  intro cfg dp events
  induction events with
  | nil =>
    intro s key e h
    exact ⟨e, h, rfl, rfl, rfl, rfl, rfl⟩
  | cons ev rest ih =>
    intro s key e h
    obtain ⟨e1, h1, hc1, hd1, hf1, hi1, hn1⟩ :=
      processValidMessage_preserves cfg dp ev.parsed ev.dataloggerID ev.now s key e h
    obtain ⟨e2, h2, hc2, hd2, hf2, hi2, hn2⟩ := ih _ key e1 h1
    exact ⟨e2, h2, hc2.trans hc1, hd2.trans hd1, hf2.trans hf1, hi2.trans hi1, hn2.trans hn1⟩

/-- Witness for C3: a store holding one entry processes a further valid
reading for the same key and the entry survives with its creation-time
fields intact. -/
theorem claim_C3_witness :
    (StoreState.mk
      (fun k => if k = "primary:41".toList then
        some (ChannelData.mk 0 0 (ThermocoupleConfig.mk "D1-T1".toList "K".toList 1)
          true 1000 1 "primary".toList "Datalogger 1".toList) else none)
      (fun _ => none)).channelData "primary:41".toList
      = some (ChannelData.mk 0 0 (ThermocoupleConfig.mk "D1-T1".toList "K".toList 1)
          true 1000 1 "primary".toList "Datalogger 1".toList)
    ∧ ∃ e', (processMany (AppConfig.mk [] none)
        (fun k => if k = "primary".toList then
          some (DataloggerInfo.mk []
            (DataloggerConfig.mk "primary".toList "Datalogger 1".toList
              "/dev/ttyUSB0".toList [] false)) else none)
        [ReadingEvent.mk
          (ParsedMessage.mk true (some "41".toList) (some 1) (some 25) none none none none none)
          "primary".toList 2000]
        (StoreState.mk
          (fun k => if k = "primary:41".toList then
            some (ChannelData.mk 0 0 (ThermocoupleConfig.mk "D1-T1".toList "K".toList 1)
              true 1000 1 "primary".toList "Datalogger 1".toList) else none)
          (fun _ => none))).channelData "primary:41".toList = some e'
      ∧ e'.config = ThermocoupleConfig.mk "D1-T1".toList "K".toList 1
      ∧ e'.detected = true ∧ e'.firstSeen = 1000
      ∧ e'.dataloggerID = "primary".toList ∧ e'.dataloggerName = "Datalogger 1".toList :=
  ⟨rfl, claim_C3_entry_stability (AppConfig.mk [] none)
    (fun k => if k = "primary".toList then
      some (DataloggerInfo.mk []
        (DataloggerConfig.mk "primary".toList "Datalogger 1".toList
          "/dev/ttyUSB0".toList [] false)) else none)
    [ReadingEvent.mk
      (ParsedMessage.mk true (some "41".toList) (some 1) (some 25) none none none none none)
      "primary".toList 2000]
    (StoreState.mk
      (fun k => if k = "primary:41".toList then
        some (ChannelData.mk 0 0 (ThermocoupleConfig.mk "D1-T1".toList "K".toList 1)
          true 1000 1 "primary".toList "Datalogger 1".toList) else none)
      (fun _ => none))
    "primary:41".toList
    (ChannelData.mk 0 0 (ThermocoupleConfig.mk "D1-T1".toList "K".toList 1)
      true 1000 1 "primary".toList "Datalogger 1".toList) rfl⟩

/-- Splitting never returns an empty list of parts. -/
theorem jsSplit_ne_nil (sep : Char) (l : List Char) : jsSplit sep l ≠ [] := by
  induction l with
  | nil => simp [jsSplit]
  | cons c rest ih =>
    unfold jsSplit
    split
    · simp
    · dsimp only
      rcases jsSplit sep rest with _ | ⟨t, ts⟩ <;> simp

/-- Splitting a separator-free string yields that single part. -/
theorem jsSplit_of_not_mem (sep : Char) (l : List Char) (h : sep ∉ l) :
    jsSplit sep l = [l] := by
  induction l with
  | nil => rfl
  | cons c rest ih =>
    have hc : ¬c = sep := by
      rintro rfl
      exact h (List.mem_cons_self c rest)
    have hr : sep ∉ rest := fun hm => h (List.mem_cons_of_mem c hm)
    unfold jsSplit
    rw [if_neg hc, ih hr]

/-- The number of parts is the number of separators plus one. -/
theorem jsSplit_length (sep : Char) (l : List Char) :
    (jsSplit sep l).length = List.count sep l + 1 := by
  induction l with
  | nil => simp [jsSplit]
  | cons c rest ih =>
    unfold jsSplit
    by_cases hc : c = sep
    · rw [if_pos hc]
      subst hc
      simp [List.count_cons, ih]
    · rw [if_neg hc]
      rcases hs : jsSplit sep rest with _ | ⟨t, ts⟩
      · exact absurd hs (jsSplit_ne_nil sep rest)
      · have : (t :: ts).length = List.count sep rest + 1 := by rw [← hs]; exact ih
        simp only [List.length_cons] at this ⊢
        rw [List.count_cons]
        simp [hc, this]

/-- Distribution of `jsSplit` over append: the last part of the left
split merges with the first part of the right split. -/
theorem jsSplit_append (sep : Char) (a b : List Char) :
    jsSplit sep (a ++ b)
      = (jsSplit sep a).dropLast
        ++ mergeHead ((jsSplit sep a).getLastD []) (jsSplit sep b) := by
  induction a with
  | nil =>
    rcases hb : jsSplit sep b with _ | ⟨t, ts⟩
    · exact absurd hb (jsSplit_ne_nil sep b)
    · simp [jsSplit, mergeHead, hb]
  | cons c a ih =>
    by_cases hc : c = sep
    · subst hc
      have lhs1 : jsSplit c ((c :: a) ++ b) = [] :: jsSplit c (a ++ b) := by
        show jsSplit c (c :: (a ++ b)) = _
        conv_lhs => unfold jsSplit
        rw [if_pos rfl]
      have rhs1 : jsSplit c (c :: a) = [] :: jsSplit c a := by
        conv_lhs => unfold jsSplit
        rw [if_pos rfl]
      rw [lhs1, rhs1, ih]
      rcases hs : jsSplit c a with _ | ⟨t, ts⟩
      · exact absurd hs (jsSplit_ne_nil c a)
      · rfl
    · rcases hP : jsSplit sep a with _ | ⟨t, ts⟩
      · exact absurd hP (jsSplit_ne_nil sep a)
      rcases hQ : jsSplit sep b with _ | ⟨u, us⟩
      · exact absurd hQ (jsSplit_ne_nil sep b)
      have lhs1 : jsSplit sep ((c :: a) ++ b) = match jsSplit sep (a ++ b) with
          | [] => [[c]]
          | t :: ts => (c :: t) :: ts := by
        show jsSplit sep (c :: (a ++ b)) = _
        conv_lhs => unfold jsSplit
        rw [if_neg hc]
      have rhs1 : jsSplit sep (c :: a) = (c :: t) :: ts := by
        conv_lhs => unfold jsSplit
        rw [if_neg hc, hP]
      rw [lhs1, ih, hP, hQ, rhs1]
      rcases ts with _ | ⟨v, vs⟩
      · simp [mergeHead]
      · simp [mergeHead, List.getLastD_cons]

/-- The default of `getLastD` is irrelevant on a non-empty list. -/
theorem getLastD_default_irrel {α : Type} (ys : List α) (hy : ys ≠ []) (d d' : α) :
    ys.getLastD d = ys.getLastD d' := by
  cases ys with
  | nil => exact absurd rfl hy
  | cons y ys => rw [List.getLastD_cons, List.getLastD_cons]

/-- Last element of an append with a non-empty right part. -/
theorem getLastD_append_ne {α : Type} (ys : List α) (hy : ys ≠ []) :
    ∀ (xs : List α) (d : α), (xs ++ ys).getLastD d = ys.getLastD d := by
  intro xs
  induction xs with
  | nil => intro d; rfl
  | cons x xs ih =>
    intro d
    rw [List.cons_append, List.getLastD_cons, ih x, getLastD_default_irrel ys hy x d]

/-- The last part of a split never contains the separator. -/
theorem sep_not_mem_getLastD (sep : Char) (l : List Char) :
    sep ∉ (jsSplit sep l).getLastD [] := by
  induction l with
  | nil => simp [jsSplit]
  | cons c rest ih =>
    by_cases hc : c = sep
    · subst hc
      have h1 : jsSplit c (c :: rest) = [] :: jsSplit c rest := by
        conv_lhs => unfold jsSplit
        rw [if_pos rfl]
      rw [h1, List.getLastD_cons]
      rcases hs : jsSplit c rest with _ | ⟨t, ts⟩
      · exact absurd hs (jsSplit_ne_nil c rest)
      · rw [← hs]
        rw [getLastD_default_irrel (jsSplit c rest) (jsSplit_ne_nil c rest) [] []] at ih
        exact ih
    · rcases hs : jsSplit sep rest with _ | ⟨t, ts⟩
      · exact absurd hs (jsSplit_ne_nil sep rest)
      · have h1 : jsSplit sep (c :: rest) = (c :: t) :: ts := by
          conv_lhs => unfold jsSplit
          rw [if_neg hc, hs]
        rw [h1]
        rcases ts with _ | ⟨v, vs⟩
        · rw [List.getLastD_cons]
          rw [hs, List.getLastD_cons] at ih
          intro hm
          rcases List.mem_cons.mp hm with h2 | h2
          · exact hc h2.symm
          · exact ih h2
        · rw [List.getLastD_cons, getLastD_default_irrel (v :: vs) (by simp) (c :: t) t]
          rw [hs, List.getLastD_cons] at ih
          exact ih

/-- Merging a prefix into a split result never yields an empty list. -/
theorem mergeHead_ne_nil (pre : List Char) (l : List (List Char)) : mergeHead pre l ≠ [] := by
  cases l <;> simp [mergeHead]

/-- Closed form of `processSerialBuffer`. -/
theorem psb_eq (x y : List Char) : processSerialBuffer x y
    = ((((jsSplit TERMINATOR (x ++ y)).dropLast.filter (fun m => 0 < m.length)).map
        parseHH4208SDMessage), (jsSplit TERMINATOR (x ++ y)).getLastD []) := rfl

/-- Composition law of the framer: feeding `a ++ b` at once equals
feeding `a`, then feeding `b` with the returned carry. -/
theorem psb_append (buf a b : List Char) :
    (processSerialBuffer buf (a ++ b)).1
      = (processSerialBuffer buf a).1
        ++ (processSerialBuffer (processSerialBuffer buf a).2 b).1
    ∧ (processSerialBuffer buf (a ++ b)).2
      = (processSerialBuffer (processSerialBuffer buf a).2 b).2 := by
  have hc1sep : TERMINATOR ∉ (jsSplit TERMINATOR (buf ++ a)).getLastD [] :=
    sep_not_mem_getLastD TERMINATOR (buf ++ a)
  have hmerge : jsSplit TERMINATOR ((jsSplit TERMINATOR (buf ++ a)).getLastD [] ++ b)
      = mergeHead ((jsSplit TERMINATOR (buf ++ a)).getLastD []) (jsSplit TERMINATOR b) := by
    rw [jsSplit_append, jsSplit_of_not_mem TERMINATOR _ hc1sep]
    simp [mergeHead]
  have hQne : mergeHead ((jsSplit TERMINATOR (buf ++ a)).getLastD [])
      (jsSplit TERMINATOR b) ≠ [] := mergeHead_ne_nil _ _
  have hsplit : jsSplit TERMINATOR (buf ++ (a ++ b))
      = (jsSplit TERMINATOR (buf ++ a)).dropLast
        ++ mergeHead ((jsSplit TERMINATOR (buf ++ a)).getLastD [])
            (jsSplit TERMINATOR b) := by
    rw [← List.append_assoc]
    exact jsSplit_append TERMINATOR (buf ++ a) b
  constructor
  · rw [psb_eq buf (a ++ b), psb_eq buf a]
    dsimp only
    rw [psb_eq _ b, hmerge]
    dsimp only
    rw [hsplit, List.dropLast_append_of_ne_nil _ hQne, List.filter_append, List.map_append]
  · rw [psb_eq buf (a ++ b), psb_eq buf a]
    dsimp only
    rw [psb_eq _ b, hmerge]
    dsimp only
    rw [hsplit, getLastD_append_ne _ hQne]

/-- Feeding any non-empty chunk sequence equals one-shot processing of
the concatenation. -/
theorem feedMany_psb : ∀ (chunks : List (List Char)), chunks ≠ [] → ∀ buf : List Char,
    feedMany chunks buf = processSerialBuffer buf chunks.flatten := by
  intro chunks
  induction chunks with
  | nil => intro h; exact absurd rfl h
  | cons ch rest ih =>
    intro _ buf
    by_cases hr : rest = []
    · subst hr
      show ((processSerialBuffer buf ch).1 ++ [], (processSerialBuffer buf ch).2)
        = processSerialBuffer buf ([ch].flatten)
      rw [List.append_nil]
      have hj : ([ch] : List (List Char)).flatten = ch ++ [] := rfl
      rw [hj, List.append_nil]
    · calc feedMany (ch :: rest) buf
          = ((processSerialBuffer buf ch).1 ++ (feedMany rest (processSerialBuffer buf ch).2).1,
              (feedMany rest (processSerialBuffer buf ch).2).2) := rfl
        _ = ((processSerialBuffer buf ch).1
              ++ (processSerialBuffer (processSerialBuffer buf ch).2 rest.flatten).1,
              (processSerialBuffer (processSerialBuffer buf ch).2 rest.flatten).2) := by
            rw [ih hr]
        _ = ((processSerialBuffer buf (ch ++ rest.flatten)).1,
              (processSerialBuffer buf (ch ++ rest.flatten)).2) := by
            rw [(psb_append buf ch rest.flatten).1, (psb_append buf ch rest.flatten).2]
        _ = processSerialBuffer buf (ch :: rest).flatten := by
            rw [show (ch :: rest).flatten = ch ++ rest.flatten from rfl]

/-- Appending an element that fails the predicate does not change
`takeWhile`. -/
theorem takeWhile_append_singleton_neg {α : Type} (p : α → Bool) (y : α) (hy : p y = false) :
    ∀ xs : List α, List.takeWhile p (xs ++ [y]) = List.takeWhile p xs := by
  intro xs
  induction xs with
  | nil => simp [List.takeWhile, hy]
  | cons x xs ih =>
    by_cases hx : p x = true
    · rw [List.cons_append, List.takeWhile_cons_of_pos hx, List.takeWhile_cons_of_pos hx, ih]
    · have hx' : p x = false := by
        cases hpx : p x
        · rfl
        · exact absurd hpx hx
      rw [List.cons_append, List.takeWhile_cons_of_neg (by simp [hx']),
        List.takeWhile_cons_of_neg (by simp [hx'])]

/-- When some element of the left part fails the predicate, `takeWhile`
of an append stops within the left part. -/
theorem takeWhile_append_of_bad {α : Type} (p : α → Bool) :
    ∀ (xs ys : List α), (∃ x ∈ xs, p x = false) →
    List.takeWhile p (xs ++ ys) = List.takeWhile p xs := by
  intro xs
  induction xs with
  | nil =>
    intro ys h
    obtain ⟨x, hx, _⟩ := h
    cases hx
  | cons x xs ih =>
    intro ys h
    by_cases hx : p x = true
    · rw [List.cons_append, List.takeWhile_cons_of_pos hx, List.takeWhile_cons_of_pos hx]
      obtain ⟨w, hw, hpw⟩ := h
      rcases List.mem_cons.mp hw with h1 | h1
      · subst h1
        rw [hx] at hpw
        cases hpw
      · rw [ih ys ⟨w, h1, hpw⟩]
    · have hx' : p x = false := by
        cases hpx : p x
        · rfl
        · exact absurd hpx hx
      rw [List.cons_append, List.takeWhile_cons_of_neg (by simp [hx']),
        List.takeWhile_cons_of_neg (by simp [hx'])]

/-- The carry kept by the splitter is exactly the trailing unterminated
segment after the last terminator. -/
theorem jsSplit_getLastD_trailing (l : List Char) :
    (jsSplit TERMINATOR l).getLastD [] = trailingSegment l := by
  induction l with
  | nil => rfl
  | cons c rest ih =>
    by_cases hc : c = TERMINATOR
    · subst hc
      have h1 : jsSplit TERMINATOR (TERMINATOR :: rest) = [] :: jsSplit TERMINATOR rest := by
        conv_lhs => unfold jsSplit
        rw [if_pos rfl]
      rw [h1, List.getLastD_cons, ih]
      unfold trailingSegment
      rw [List.reverse_cons]
      rw [takeWhile_append_singleton_neg _ TERMINATOR (by simp) rest.reverse]
    · by_cases hm : TERMINATOR ∈ rest
      · rcases hs : jsSplit TERMINATOR rest with _ | ⟨t, ts⟩
        · exact absurd hs (jsSplit_ne_nil _ _)
        have h1 : jsSplit TERMINATOR (c :: rest) = (c :: t) :: ts := by
          conv_lhs => unfold jsSplit
          rw [if_neg hc, hs]
        have hts : ts ≠ [] := by
          have hlen := jsSplit_length TERMINATOR rest
          rw [hs] at hlen
          have hcount : 0 < List.count TERMINATOR rest := List.count_pos_iff.mpr hm
          simp only [List.length_cons] at hlen
          intro hcontra
          subst hcontra
          simp at hlen
          omega
        rw [hs, List.getLastD_cons] at ih
        rw [h1, List.getLastD_cons, getLastD_default_irrel ts hts (c :: t) t, ih]
        unfold trailingSegment
        rw [List.reverse_cons]
        rw [takeWhile_append_of_bad _ rest.reverse [c]
          ⟨TERMINATOR, List.mem_reverse.mpr hm, by simp⟩]
      · have hnm : TERMINATOR ∉ (c :: rest) := by
          intro hx
          rcases List.mem_cons.mp hx with h1 | h1
          · exact hc h1.symm
          · exact hm h1
        rw [jsSplit_of_not_mem TERMINATOR (c :: rest) hnm]
        have hall : ∀ x ∈ rest.reverse ++ [c], (fun ch => !(ch == TERMINATOR)) x = true := by
          intro x hx
          rcases List.mem_append.mp hx with h1 | h1
          · have : x ∈ rest := List.mem_reverse.mp h1
            simp
            intro hxe
            exact hm (hxe ▸ this)
          · simp at h1
            subst h1
            simp [hc]
        unfold trailingSegment
        rw [List.reverse_cons, List.takeWhile_eq_self_iff.mpr hall]
        simp

/-- Claim C2: feeding any byte sequence in arbitrarily sized chunks,
threading the carry between calls, yields exactly the parses of the
non-empty terminator-delimited segments of the full concatenated input,
and the final carry is the trailing unterminated segment after the last
terminator (possibly empty) -- chunking never changes the result. -/
theorem claim_C2_chunking :
    ∀ chunks : List (List Char),
      feedMany chunks []
        = ((((jsSplit TERMINATOR chunks.flatten).dropLast.filter
            (fun m => 0 < m.length)).map parseHH4208SDMessage),
          trailingSegment chunks.flatten) := by
  intro chunks
  rcases chunks with _ | ⟨ch, rest⟩
  · rfl
  · rw [feedMany_psb (ch :: rest) (by simp) []]
    rw [psb_eq]
    rw [List.nil_append, jsSplit_getLastD_trailing]

/-- Claim C10: `processSerialBuffer` silently drops zero-length
segments -- only non-empty complete segments are parsed, the number of
returned messages never exceeds the number of terminators consumed, and
a run of two consecutive terminators produces no message at all. -/
theorem claim_C10_empty_segments :
    (∀ buffer newData : List Char,
      (processSerialBuffer buffer newData).1
        = (((jsSplit TERMINATOR (buffer ++ newData)).dropLast.filter
            (fun m => 0 < m.length)).map parseHH4208SDMessage)
      ∧ (processSerialBuffer buffer newData).1.length
          ≤ List.count TERMINATOR (buffer ++ newData))
    ∧ processSerialBuffer [] [TERMINATOR, TERMINATOR] = ([], [])
    ∧ List.count TERMINATOR [TERMINATOR, TERMINATOR] = 2 := by
  refine ⟨?_, by decide, by decide⟩
  intro buffer newData
  constructor
  · rw [psb_eq]
  · rw [psb_eq]
    dsimp only
    have h1 := List.length_filter_le (fun m => 0 < m.length)
      (jsSplit TERMINATOR (buffer ++ newData)).dropLast
    have h2 : (jsSplit TERMINATOR (buffer ++ newData)).dropLast.length
        = (jsSplit TERMINATOR (buffer ++ newData)).length - 1 := List.length_dropLast _
    have h3 := jsSplit_length TERMINATOR (buffer ++ newData)
    rw [List.length_map]
    omega
